import Mathlib

/-
  Verification development for `src/file-repacker.py` (noisysoil/file-repacker).

  The program walks a source tree, and for each regular file either copies it,
  recompresses a `.7z`/`.zip` container into a `.7z` container, or wraps the
  file as the single entry of a new `.7z` container, under a
  semaphore-bounded multiprocessing pool.

  Shallow embedding conventions:
  * Byte contents are `List Nat`.
  * The behaviour of the external archive libraries (`py7zr`, `zipfile`) and of
    the filesystem calls (`shutil.copy`, `SevenZipFile.write`) is part of the
    per-file input (`SourceFile`): the entry list a source container yields,
    whether opening it raises, whether reading a given entry raises, whether
    the single-file write or the fallback copy raises.
  * Python exception flow is made explicit: each phase returns a flag saying
    whether an exception escaped it, and the worker result records whether
    `process_files` returned normally (reaching `the_semaphore.release()` on
    line 132) or propagated an exception.
  * The destination tree is an association list from path to the object last
    written there; `py7zr.SevenZipFile(path, "w")` creates the file at open
    (recorded as `.truncated`), and closing the writer commits the entries
    written so far (recorded as `.archive`).
-/

/-- Byte strings are modelled as lists of naturals. -/
abbrev Bytes := List Nat

/-- One entry as reported by the source container library: `py7zr`'s
`FileInfo` (`filename`, `is_directory`, `uncompressed`) or `zipfile`'s
`ZipInfo` (`filename`, `is_dir()`, `file_size`).  `content` is what reading
the entry yields and `readOk` is whether that read raises. -/
structure SrcEntry where
  name : String
  isDir : Bool
  size : Nat
  content : Bytes
  readOk : Bool
  deriving DecidableEq

/-- Result of opening a source container: the constructor call
(`py7zr.SevenZipFile(..., "r")` on line 71 / `zipfile.ZipFile(..., "r")` on
line 96) either raises or yields the list of entries that
`list()` / `infolist()` will report. -/
inductive ArchiveOpen where
  | fail
  | ok (entries : List SrcEntry)
  deriving DecidableEq

/-- One regular source file together with the behaviour the external
libraries exhibit on it: `size` is `os.path.getsize`, `content` the raw
bytes, `archive` what opening it as a container does, `wrapWriteOk` whether
`compressed_archive.write` of the file itself (line 119) succeeds, `copyOk`
whether `shutil.copy` of the file (line 127) succeeds. -/
structure SourceFile where
  filename : String
  size : Nat
  content : Bytes
  archive : ArchiveOpen
  wrapWriteOk : Bool
  copyOk : Bool
  deriving DecidableEq

/-- One entry of the destination archive being written. -/
structure ArchiveEntry where
  name : String
  isDir : Bool
  content : Bytes
  deriving DecidableEq

/-- A destination filesystem object. `truncated` is a file created by
`py7zr.SevenZipFile(path, "w")` (line 67) whose writer was never closed, so
the buffered entries were never committed. -/
inductive DestObject where
  | truncated
  | archive (entries : List ArchiveEntry)
  | copyOf (content : Bytes)
  deriving DecidableEq

/-- The destination tree: association list from path to the object last
written at that path. -/
abbrev Fs := List (String × DestObject)

/-- Write (create or overwrite) the object at a path. -/
def fsSet : Fs → String → DestObject → Fs
  | [], p, o => [(p, o)]
  | kv :: rest, p, o => if kv.1 = p then (p, o) :: rest else kv :: fsSet rest p o

/-- Read the object at a path. -/
def fsGet : Fs → String → Option DestObject
  | [], _ => none
  | kv :: rest, p => if kv.1 = p then some kv.2 else fsGet rest p

/-- Index of the last occurrence of a character in a list, if any. -/
def lastIdxOf (c : Char) : List Char → Option Nat
  | [] => none
  | x :: xs =>
    match lastIdxOf c xs with
    | some i => some (i + 1)
    | none => if x = c then some 0 else none

/-- Model of `os.path.splitext` (line 51) for a bare filename (no path
separators): split at the last dot, unless every character before it is a
dot (so `".bashrc"` has no extension); the extension keeps the dot. -/
def splitext (s : String) : String × String :=
  match lastIdxOf '.' s.data with
  | none => (s, "")
  | some i =>
    if (s.data.take i).all (fun c => c = '.') then (s, "")
    else (String.mk (s.data.take i), String.mk (s.data.drop i))

/-- ASCII lowercasing of one character. -/
def casefoldChar (c : Char) : Char :=
  if 'A' ≤ c ∧ c ≤ 'Z' then Char.ofNat (c.toNat + 32) else c

/-- Model of `str.casefold` (lines 53 and 176).  The extensions the program
compares are ASCII, where casefolding is lowercasing. -/
def casefold (s : String) : String := String.mk (s.data.map casefoldChar)

/-- The per-file treatment decided by lines 61, 64, 69, 94 and 118: the
three-way decision the spec calls the File Classifier. -/
inductive Treatment where
  | copy
  | transcodeArchive
  | wrapSingleFile
  deriving DecidableEq

/-- The `FileOperations` enum of lines 15-17. -/
inductive FileOperations where
  | doNothing
  | copy
  deriving DecidableEq

/-- The classifier implicit in `process_files`: line 61 (size guard),
line 64 (allow-list membership of the casefolded extension), lines 69/94
(container formats), line 118 (wrap everything else).  Total by
construction. -/
def classify (maxFileSize : Nat) (fileExtensionsToCompress : List String)
    (fileSize : Nat) (fileExtension : String) : Treatment :=
  if fileSize > maxFileSize then .copy
  else if fileExtension ∈ fileExtensionsToCompress then
    if fileExtension = ".7z" then .transcodeArchive
    else if fileExtension = ".zip" then .transcodeArchive
    else .wrapSingleFile
  else .copy

/-- Reading an entry's content by name: `source_archive.read([archive_info.filename])`
(line 81) and `source_archive.read(name=archive_info.filename)` (line 106)
both look the entry up by name; both libraries build the name-to-entry map in
entry order with later entries overwriting earlier ones, so the last entry
bearing the name wins. -/
def lookupEntry (entries : List SrcEntry) (name : String) : Option SrcEntry :=
  entries.reverse.find? (fun e => e.name == name)

/-- The rewrite loop of lines 72-83 (7z) and 97-107 (zip): iterate over the
listed entries; a directory becomes a directory marker, a zero-size entry
becomes a zero-length entry (the `empty_file` buffer of lines 57-59 reads
as empty), any other entry has its content read by name and rewritten.  A
failed read raises, aborting the loop with the entries written so far. -/
def writeEntryLoop (all : List SrcEntry) :
    List SrcEntry → List ArchiveEntry → List ArchiveEntry × Bool
  | [], acc => (acc, true)
  | e :: rest, acc =>
    if e.isDir then writeEntryLoop all rest (acc ++ [ArchiveEntry.mk e.name true []])
    else if e.size = 0 then writeEntryLoop all rest (acc ++ [ArchiveEntry.mk e.name false []])
    else
      match lookupEntry all e.name with
      | some found =>
        if found.readOk then
          writeEntryLoop all rest (acc ++ [ArchiveEntry.mk e.name false found.content])
        else (acc, false)
      | none => (acc, false)

/-- State after the classification / transcode section (lines 61-121):
the destination objects written, the value of `post_file_processing`, and
whether an exception escaped the section (in which case `process_files`
itself propagates it). -/
structure TranscodePhase where
  fs : Fs
  post : FileOperations
  exn : Bool
  deriving DecidableEq

/-- The `.7z` branch (lines 69-92) and the `.zip` branch (lines 94-116),
which differ only in the library used.  The destination writer was already
opened (line 67), creating the output file.  If opening the source raises,
the `except` clause sets `post_file_processing = COPY`, but the `finally`
clause then evaluates `source_archive.close()` with `source_archive` never
bound, raising `NameError`: the destination writer is never closed (the
file stays truncated) and the exception escapes `process_files`.  If an
entry read raises mid-loop, the `except` clause sets COPY and the `finally`
clause closes both archives, committing the partially rewritten entries. -/
def transcodeBranch (src : SourceFile) (destArchivePath : String) (fs : Fs) :
    TranscodePhase :=
  match src.archive with
  | .fail => ⟨fs, .copy, true⟩
  | .ok entries =>
    match writeEntryLoop entries entries [] with
    | (written, ok) =>
      ⟨fsSet fs destArchivePath (.archive written),
       if ok then .doNothing else .copy, false⟩

/-- The wrap branch (lines 118-121): `compressed_archive.write` of the raw
file, not guarded by any try/except.  On success the writer is closed
(committing the single entry) and `post_file_processing = DO_NOTHING`; if
the write raises, the exception escapes `process_files` with the writer
never closed. -/
def wrapBranch (src : SourceFile) (destArchivePath : String) (fs : Fs) :
    TranscodePhase :=
  if src.wrapWriteOk then
    ⟨fsSet fs destArchivePath (.archive [ArchiveEntry.mk src.filename false src.content]),
     .doNothing, false⟩
  else ⟨fs, .copy, true⟩

/-- Lines 49-121 of `process_files`: default `post_file_processing = COPY`;
size guard; allow-list guard; on the compression path the destination
archive `{destination_directory}{current_relative_path}{file_basename}.7z`
is created (line 67) before the format branch runs. -/
def phaseA (maxFileSize : Nat) (fileExtensionsToCompress : List String)
    (src : SourceFile) (currentRelativePath destinationDirectory : String)
    (fs0 : Fs) : TranscodePhase :=
  if src.size > maxFileSize then ⟨fs0, .copy, false⟩
  else if casefold (splitext src.filename).2 ∈ fileExtensionsToCompress then
    if casefold (splitext src.filename).2 = ".7z" then
      transcodeBranch src
        (destinationDirectory ++ currentRelativePath ++ (splitext src.filename).1 ++ ".7z")
        (fsSet fs0
          (destinationDirectory ++ currentRelativePath ++ (splitext src.filename).1 ++ ".7z")
          .truncated)
    else if casefold (splitext src.filename).2 = ".zip" then
      transcodeBranch src
        (destinationDirectory ++ currentRelativePath ++ (splitext src.filename).1 ++ ".7z")
        (fsSet fs0
          (destinationDirectory ++ currentRelativePath ++ (splitext src.filename).1 ++ ".7z")
          .truncated)
    else
      wrapBranch src
        (destinationDirectory ++ currentRelativePath ++ (splitext src.filename).1 ++ ".7z")
        (fsSet fs0
          (destinationDirectory ++ currentRelativePath ++ (splitext src.filename).1 ++ ".7z")
          .truncated)
  else ⟨fs0, .copy, false⟩

/-- Whether `process_files` returned normally (reaching the
`the_semaphore.release()` on line 132) or propagated an exception. -/
inductive WorkerExit where
  | completed
  | raised
  deriving DecidableEq

/-- Observable outcome of one `process_files` call: destination objects
written, exit kind, number of semaphore releases performed, the final value
of `post_file_processing`, and the value of `destination_archive_filename`
at line 130 (absent when the call raised before reaching it). -/
structure WorkerResult where
  fs : Fs
  exitKind : WorkerExit
  released : Nat
  postOp : FileOperations
  finalPath : Option String
  deriving DecidableEq

/-- Lines 124-132 of `process_files`: if `post_file_processing == COPY`,
rebind `destination_archive_filename` to the plain filename under the
destination and `shutil.copy` the source there (a raise here escapes
`process_files`); then release the semaphore.  The release on line 132 is
only reached when no exception escaped. -/
def postProcess (src : SourceFile)
    (currentRelativePath destinationDirectory fileBasename : String)
    (phase : TranscodePhase) : WorkerResult :=
  if phase.exn then ⟨phase.fs, .raised, 0, phase.post, none⟩
  else if phase.post = .copy then
    if src.copyOk then
      ⟨fsSet phase.fs (destinationDirectory ++ currentRelativePath ++ src.filename)
          (.copyOf src.content),
       .completed, 1, phase.post,
       some (destinationDirectory ++ currentRelativePath ++ src.filename)⟩
    else ⟨phase.fs, .raised, 0, phase.post, none⟩
  else
    ⟨phase.fs, .completed, 1, phase.post,
     some (destinationDirectory ++ currentRelativePath ++ fileBasename ++ ".7z")⟩

/-- The whole worker body `process_files` (lines 43-132). `currentPath` is
where the source file is read from; source reads are folded into `src`. -/
def processFiles (maxFileSize : Nat) (fileExtensionsToCompress : List String)
    (src : SourceFile) (currentRelativePath currentPath destinationDirectory : String)
    (fs0 : Fs) : WorkerResult :=
  postProcess src currentRelativePath destinationDirectory (splitext src.filename).1
    (phaseA maxFileSize fileExtensionsToCompress src currentRelativePath
      destinationDirectory fs0)

/-- Strip trailing slash characters: `path.rstrip("/")` (line 144). -/
def rstripSlash (s : String) : String :=
  String.mk (s.data.reverse.dropWhile (fun c => c = '/')).reverse

/-- Strip leading slash characters: `.lstrip("/")` (line 146). -/
def lstripSlash (s : String) : String :=
  String.mk (s.data.dropWhile (fun c => c = '/'))

/-- One `os.walk` triple (line 143): a directory path and the names of the
regular files directly inside it (the `directories` component is unused by
the program). -/
structure WalkEntry where
  path : String
  files : List String
  deriving DecidableEq

/-- Fuel-driven replacement loop over character lists; the fuel is the
length of the scanned list, and every step consumes at least one
character, so the fuel never runs out when initialised that way. -/
def replaceAllFuel (pat repl : List Char) : Nat → List Char → List Char
  | 0, s => s
  | _ + 1, [] => []
  | fuel + 1, x :: xs =>
    if pat ≠ [] ∧ pat.isPrefixOf (x :: xs) then
      repl ++ replaceAllFuel pat repl fuel ((x :: xs).drop pat.length)
    else x :: replaceAllFuel pat repl fuel xs

/-- Model of Python `str.replace`: replace every non-overlapping occurrence
of `pattern`, scanning left to right (for a nonempty pattern, as used by
the program). -/
def pyReplace (s pattern replacement : String) : String :=
  String.mk (replaceAllFuel pattern.data replacement.data s.data.length s.data)

/-- Lines 144-146: the relative path computed for one walked directory.
`pyReplace` removes every occurrence of the (slash-terminated) source
directory, mirroring `path.replace(source_directory, "")`. -/
def relOfWalkPath (sourceDirectory p : String) : String :=
  lstripSlash (pyReplace (rstripSlash p ++ "/") sourceDirectory "")

/-- Line 148, iterated over the whole walk: the destination directories
created by `compress_files`.  One `os.makedirs(..., exist_ok=True)` per
walked directory, unconditionally — before and regardless of the inner
loop over that directory's files. -/
def walkMakedirs (sourceDirectory destinationDirectory : String)
    (walk : List WalkEntry) : List String :=
  walk.map (fun w => destinationDirectory ++ relOfWalkPath sourceDirectory w.path)

/-- One Job as submitted by the enumerator loop (lines 150-160): the file
(with its library behaviour) plus the directory context captured for it. -/
structure JobSpec where
  src : SourceFile
  currentRelativePath : String
  currentPath : String
  deriving DecidableEq

/-- Whether the worker body for this Job propagates an exception (and hence
skips the `the_semaphore.release()` on line 132). -/
def jobRaises (maxFileSize : Nat) (fileExtensionsToCompress : List String)
    (destinationDirectory : String) (j : JobSpec) : Bool :=
  match (processFiles maxFileSize fileExtensionsToCompress j.src
      j.currentRelativePath j.currentPath destinationDirectory []).exitKind with
  | .raised => true
  | .completed => false

/-- State of the run of `compress_files` (lines 139-163): the value of the
bounded semaphore, the files the enumerator has not yet submitted (in
submission order), the Jobs currently executing in the pool, the number of
Jobs that ran to normal completion, and the number of Jobs that ended in an
uncaught exception (each of which permanently consumes a semaphore permit,
since the release on line 132 is never reached). -/
structure PState where
  permits : Nat
  pending : List JobSpec
  running : List JobSpec
  done : Nat
  leaked : Nat
  deriving DecidableEq

/-- Interleaving semantics of the bounded pool: the enumerator submits the
next file once `pool_semaphore.acquire(blocking=True)` succeeds (lines
152-160), and any running Job may finish — releasing the semaphore when
`process_files` completes (line 132), or leaking the permit when it
raises (the exception is captured in the discarded `AsyncResult`). -/
inductive PStep (maxFileSize : Nat) (fileExtensionsToCompress : List String)
    (destinationDirectory : String) : PState → PState → Prop where
  | submit (s : PState) (j : JobSpec) (rest : List JobSpec)
      (hpending : s.pending = j :: rest) (hpermits : 0 < s.permits) :
      PStep maxFileSize fileExtensionsToCompress destinationDirectory s
        (PState.mk (s.permits - 1) rest (s.running ++ [j]) s.done s.leaked)
  | finishOk (s : PState) (j : JobSpec) (l1 l2 : List JobSpec)
      (hrunning : s.running = l1 ++ j :: l2)
      (hok : jobRaises maxFileSize fileExtensionsToCompress destinationDirectory j = false) :
      PStep maxFileSize fileExtensionsToCompress destinationDirectory s
        (PState.mk (s.permits + 1) s.pending (l1 ++ l2) (s.done + 1) s.leaked)
  | finishRaise (s : PState) (j : JobSpec) (l1 l2 : List JobSpec)
      (hrunning : s.running = l1 ++ j :: l2)
      (hraise : jobRaises maxFileSize fileExtensionsToCompress destinationDirectory j = true) :
      PStep maxFileSize fileExtensionsToCompress destinationDirectory s
        (PState.mk s.permits s.pending (l1 ++ l2) s.done (s.leaked + 1))

/-- Initial pool state: `processes` permits (line 140), all Jobs pending. -/
def initPState (processes : Nat) (jobs : List JobSpec) : PState :=
  PState.mk processes jobs [] 0 0

/-- Exit status of the interpreter after `compress_files` returns (lines
199-204): the `__main__` block contains no `sys.exit` and never inspects
the workers' `AsyncResult`s (they are discarded at line 154), so a run that
completes always exits with status 0, whatever the per-Job outcomes were. -/
def mainExitStatus (jobResults : List WorkerResult) : Nat :=
  match jobResults with
  | _ => 0

/-- Well-formedness of a source container as the claims assume it: entry
names are pairwise distinct (so the by-name reads of lines 81/106 retrieve
each listed entry itself), the reported sizes agree with the contents,
directories carry no content, and every content-bearing read succeeds. -/
abbrev ValidContainer (entries : List SrcEntry) : Prop :=
  (entries.map SrcEntry.name).Nodup ∧
  ∀ e ∈ entries, e.size = e.content.length ∧
    (e.isDir = true → e.content = []) ∧
    (e.isDir = false → 0 < e.size → e.readOk = true)

/-- C1 failing input: a `.7z` source file that `py7zr.SevenZipFile(..., "r")`
fails to open (for instance a corrupt archive). -/
def c1corrupt7z : SourceFile := SourceFile.mk "a.7z" 5 [1, 2, 3, 4, 5] .fail true true

/-- C2 witness input: the spec's scenario `data.zip` containing a two-byte
text file, an empty directory and a zero-length file. -/
def c2entries : List SrcEntry :=
  [SrcEntry.mk "x.txt" false 2 [104, 105] true,
   SrcEntry.mk "emptydir/" true 0 [] true,
   SrcEntry.mk "y.bin" false 0 [] true]

/-- C2 witness input: the file `data.zip` with the entries above. -/
def c2zip : SourceFile := SourceFile.mk "data.zip" 40 (List.replicate 40 7) (.ok c2entries) true true

/-- C3 witness input: an allow-listed non-container file to be wrapped. -/
def c3wrapSrc : SourceFile := SourceFile.mk "w.lnx" 2 [5, 6] (.ok []) true true

/-- C4 failing input: an allow-listed non-container file whose
`compressed_archive.write` raises (for instance on a full disk). -/
def c4wrapFail : SourceFile := SourceFile.mk "a.lnx" 4 [1, 2, 3, 4] (.ok []) false true

/-- C5 counterexample input: a valid `.7z` container whose single entry has
zero content, so the aggregate content size across all entries is 0. -/
def c5empty7z : SourceFile :=
  SourceFile.mk "a.7z" 5 [1, 2, 3, 4, 5] (.ok [SrcEntry.mk "e.txt" false 0 [] true]) true true

/-- C6 counterexample input: a file outside the allow-list whose fallback
`shutil.copy` raises (a `FilesystemError` during the fallback Copy). -/
def c6copyFail : SourceFile := SourceFile.mk "b.txt" 3 [1, 2, 3] (.ok []) true false

/-- C6 witness input: a file outside the allow-list whose copy succeeds. -/
def c6copyOkSrc : SourceFile := SourceFile.mk "g.txt" 3 [1, 2, 3] (.ok []) true true

/-- C7 counterexample Job: its worker body raises (copy failure), leaking
the semaphore permit. -/
def c7jobBad : JobSpec := JobSpec.mk c6copyFail "" "/s/"

/-- C7 Job whose worker body completes normally. -/
def c7jobGood : JobSpec := JobSpec.mk c6copyOkSrc "" "/s/"

/-- C7/C8 counterexample pool state: after the failing Job leaked the only
permit, the enumerator blocks forever on `pool_semaphore.acquire` with one
file still unsubmitted. -/
def c7stuck : PState := PState.mk 0 [c7jobGood] [] 0 1

/-- C9 counterexample walk: the source root and an empty subdirectory; no
directory in the walk contains any regular file. -/
def c9walk : List WalkEntry := [WalkEntry.mk "/s" [], WalkEntry.mk "/s/empty" []]

/-- C10 counterexample input: a valid zip whose base name collides with a
wrapped sibling. -/
def c10zip : SourceFile :=
  SourceFile.mk "b.zip" 3 [1, 2, 3] (.ok [SrcEntry.mk "x" false 1 [7] true]) true true

/-- C10 counterexample input: a wrapped file with the same base name. -/
def c10lnx : SourceFile := SourceFile.mk "b.lnx" 3 [9, 9, 9] (.ok []) true true

/-- C10 counterexample input: a zip whose entry read fails mid-transcode, so
the Job writes two destination objects (partial archive plus fallback copy). -/
def c10zipBad : SourceFile :=
  SourceFile.mk "c.zip" 3 [1, 2, 3] (.ok [SrcEntry.mk "x" false 1 [7] false]) true true

theorem fsGet_fsSet (fs : Fs) (p : String) (o : DestObject) :
    fsGet (fsSet fs p o) p = some o := by
  induction fs with
  | nil => simp [fsSet, fsGet]
  | cons kv rest ih =>
    by_cases h : kv.1 = p
    · simp [fsSet, fsGet, h]
    · simp [fsSet, fsGet, h, ih]

theorem find_name_self (e : SrcEntry) :
    ∀ l : List SrcEntry, (l.map SrcEntry.name).Nodup → e ∈ l →
      l.find? (fun x => x.name == e.name) = some e := by
  intro l
  induction l with
  | nil => intro _ hmem; cases hmem
  | cons x xs ih =>
    intro hnd hmem
    rw [List.map_cons, List.nodup_cons] at hnd
    rcases List.mem_cons.mp hmem with rfl | hxs
    · simp [List.find?_cons]
    · have hx : (x.name == e.name) = false := by
        simp only [beq_eq_false_iff_ne, ne_eq]
        intro heq
        exact hnd.1 (heq ▸ List.mem_map_of_mem SrcEntry.name hxs)
      rw [List.find?_cons, hx]
      exact ih hnd.2 hxs

theorem lookupEntry_self (entries : List SrcEntry) (e : SrcEntry)
    (hnd : (entries.map SrcEntry.name).Nodup) (hmem : e ∈ entries) :
    lookupEntry entries e.name = some e := by
  unfold lookupEntry
  apply find_name_self
  · rw [List.map_reverse]
    exact List.nodup_reverse.mpr hnd
  · exact List.mem_reverse.mpr hmem

theorem writeEntryLoop_complete (all : List SrcEntry)
    (hnd : (all.map SrcEntry.name).Nodup)
    (hv : ∀ e ∈ all, e.size = e.content.length ∧ (e.isDir = true → e.content = []) ∧
      (e.isDir = false → 0 < e.size → e.readOk = true)) :
    ∀ (rest : List SrcEntry) (acc : List ArchiveEntry), (∀ e ∈ rest, e ∈ all) →
      writeEntryLoop all rest acc
        = (acc ++ rest.map (fun e => ArchiveEntry.mk e.name e.isDir e.content), true) := by
  intro rest
  induction rest with
  | nil => intro acc _; simp [writeEntryLoop]
  | cons e rest ih =>
    intro acc hsub
    have hall := hv e (hsub e (List.mem_cons_self e rest))
    have hsub' : ∀ x ∈ rest, x ∈ all := fun x hx => hsub x (List.mem_cons_of_mem e hx)
    by_cases hdir : e.isDir = true
    · have hc : e.content = [] := hall.2.1 hdir
      simp [writeEntryLoop, hdir, ih _ hsub', hc]
    · have hdirF : e.isDir = false := by simpa using hdir
      by_cases hs : e.size = 0
      · have hc : e.content = [] := by
          have := hall.1
          rw [hs] at this
          exact (List.eq_nil_of_length_eq_zero this.symm)
        simp [writeEntryLoop, hdirF, hs, ih _ hsub', hc]
      · have hro : e.readOk = true := hall.2.2 hdirF (Nat.pos_of_ne_zero hs)
        have hlook := lookupEntry_self all e hnd (hsub e (List.mem_cons_self e rest))
        simp [writeEntryLoop, hdirF, hs, hlook, hro, ih _ hsub']

theorem writeEntryLoop_empties (all : List SrcEntry) :
    ∀ (rest : List SrcEntry) (acc : List ArchiveEntry),
      (∀ e ∈ rest, e.isDir = true ∨ e.size = 0) →
      writeEntryLoop all rest acc
        = (acc ++ rest.map (fun e => ArchiveEntry.mk e.name e.isDir []), true) := by
  intro rest
  induction rest with
  | nil => intro acc _; simp [writeEntryLoop]
  | cons e rest ih =>
    intro acc hemp
    have hsub : ∀ x ∈ rest, x.isDir = true ∨ x.size = 0 :=
      fun x hx => hemp x (List.mem_cons_of_mem e hx)
    rcases hemp e (List.mem_cons_self e rest) with hdir | hs
    · simp [writeEntryLoop, hdir, ih _ hsub]
    · by_cases hdir : e.isDir = true
      · simp [writeEntryLoop, hdir, ih _ hsub]
      · have hdirF : e.isDir = false := by simpa using hdir
        simp [writeEntryLoop, hdirF, hs, ih _ hsub]

theorem postProcess_released_eq (src : SourceFile)
    (currentRelativePath destinationDirectory fileBasename : String)
    (phase : TranscodePhase) :
    ((postProcess src currentRelativePath destinationDirectory fileBasename phase).exitKind
        = .completed →
      (postProcess src currentRelativePath destinationDirectory fileBasename phase).released = 1)
    ∧ ((postProcess src currentRelativePath destinationDirectory fileBasename phase).exitKind
        = .raised →
      (postProcess src currentRelativePath destinationDirectory fileBasename phase).released
        = 0) := by
  unfold postProcess
  split_ifs <;> simp

theorem poolInvariant (maxFileSize : Nat) (fileExtensionsToCompress : List String)
    (destinationDirectory : String) (processes : Nat) (jobs : List JobSpec) (s : PState)
    (h : Relation.ReflTransGen
      (PStep maxFileSize fileExtensionsToCompress destinationDirectory)
      (initPState processes jobs) s) :
    s.permits + s.running.length + s.leaked = processes
    ∧ s.done + s.leaked + s.running.length + s.pending.length = jobs.length := by
  induction h with
  | refl => simp [initPState]
  | tail hst step ih =>
    obtain ⟨ih1, ih2⟩ := ih
    cases step with
    | submit j rest hpending hpermits =>
      have hlen := congrArg List.length hpending
      simp only [List.length_cons] at hlen
      refine ⟨?_, ?_⟩ <;> dsimp only <;> simp only [List.length_append,
        List.length_cons, List.length_nil] <;> omega
    | finishOk j l1 l2 hrunning hok =>
      have hlen := congrArg List.length hrunning
      simp only [List.length_append, List.length_cons] at hlen
      refine ⟨?_, ?_⟩ <;> dsimp only <;> simp only [List.length_append,
        List.length_cons, List.length_nil] <;> omega
    | finishRaise j l1 l2 hrunning hraise =>
      have hlen := congrArg List.length hrunning
      simp only [List.length_append, List.length_cons] at hlen
      refine ⟨?_, ?_⟩ <;> dsimp only <;> simp only [List.length_append,
        List.length_cons, List.length_nil] <;> omega

theorem c7badSubmit :
    PStep 100 [] "/d/" (initPState 1 [c7jobBad, c7jobGood])
      (PState.mk 0 [c7jobGood] [c7jobBad] 0 0) :=
  PStep.submit (initPState 1 [c7jobBad, c7jobGood]) c7jobBad [c7jobGood] rfl (by decide)

theorem c7badRaise :
    PStep 100 [] "/d/" (PState.mk 0 [c7jobGood] [c7jobBad] 0 0) c7stuck :=
  PStep.finishRaise (PState.mk 0 [c7jobGood] [c7jobBad] 0 0) c7jobBad [] [] rfl (by decide)

theorem c7goodSubmit :
    PStep 100 [] "/d/" (initPState 1 [c7jobGood]) (PState.mk 0 [] [c7jobGood] 0 0) :=
  PStep.submit (initPState 1 [c7jobGood]) c7jobGood [] rfl (by decide)

theorem c7goodFinish :
    PStep 100 [] "/d/" (PState.mk 0 [] [c7jobGood] 0 0) (PState.mk 1 [] [] 1 0) :=
  PStep.finishOk (PState.mk 0 [] [c7jobGood] 0 0) c7jobGood [] [] rfl (by decide)

theorem phaseA_transcode (maxFileSize : Nat) (fileExtensionsToCompress : List String)
    (src : SourceFile) (currentRelativePath destinationDirectory : String) (fs0 : Fs)
    (hsize : ¬ src.size > maxFileSize)
    (hallow : casefold (splitext src.filename).2 ∈ fileExtensionsToCompress)
    (hext : casefold (splitext src.filename).2 = ".7z"
      ∨ casefold (splitext src.filename).2 = ".zip") :
    phaseA maxFileSize fileExtensionsToCompress src currentRelativePath destinationDirectory fs0
      = transcodeBranch src
          (destinationDirectory ++ currentRelativePath ++ (splitext src.filename).1 ++ ".7z")
          (fsSet fs0
            (destinationDirectory ++ currentRelativePath ++ (splitext src.filename).1 ++ ".7z")
            .truncated) := by
  rcases hext with h | h
  · rw [h] at hallow
    simp [phaseA, hsize, hallow, h]
  · rw [h] at hallow
    have h7 : (".zip" : String) ≠ ".7z" := by decide
    simp [phaseA, hsize, hallow, h, h7]

theorem phaseA_wrap (maxFileSize : Nat) (fileExtensionsToCompress : List String)
    (src : SourceFile) (currentRelativePath destinationDirectory : String) (fs0 : Fs)
    (hsize : ¬ src.size > maxFileSize)
    (hallow : casefold (splitext src.filename).2 ∈ fileExtensionsToCompress)
    (h7 : casefold (splitext src.filename).2 ≠ ".7z")
    (hz : casefold (splitext src.filename).2 ≠ ".zip") :
    phaseA maxFileSize fileExtensionsToCompress src currentRelativePath destinationDirectory fs0
      = wrapBranch src
          (destinationDirectory ++ currentRelativePath ++ (splitext src.filename).1 ++ ".7z")
          (fsSet fs0
            (destinationDirectory ++ currentRelativePath ++ (splitext src.filename).1 ++ ".7z")
            .truncated) := by
  simp [phaseA, hsize, hallow, h7, hz]

/-- C1: for a Job classified as `TranscodeArchive` whose source container
fails to open (a container read failure), `process_files` does NOT leave a
byte-identical copy as the final destination state.  The `except` clause
(line 89) selects the fallback copy, but the `finally` clause (line 91)
evaluates `source_archive.close()` with `source_archive` never bound, so a
`NameError` escapes the worker: the truncated destination archive
`/d/a.7z` (created at line 67) is left behind and the copy of lines
124-127 never executes.  This contradicts the code's own comment (lines
47-48) that any exception in the compression libraries leads to a default
copy. -/
theorem C1_open_failure_end_state :
    processFiles 100 [".7z", ".zip"] c1corrupt7z "" "/s/" "/d/" []
      = WorkerResult.mk [("/d/a.7z", .truncated)] .raised 0 .copy none := by decide

/-- C2: for a valid source container (distinct entry names, sizes consistent
with contents, all content reads succeeding) with at least one non-empty
entry, classified as `TranscodeArchive`, the worker completes and the
destination archive holds exactly the source entries: same names in the
same order, same `isDirectory` flag, byte-identical content, with
zero-length non-directory entries present as explicit zero-length
entries. -/
theorem C2_transcode_round_trip (maxFileSize : Nat)
    (fileExtensionsToCompress : List String) (src : SourceFile)
    (currentRelativePath currentPath destinationDirectory : String) (fs0 : Fs)
    (entries : List SrcEntry)
    (harc : src.archive = .ok entries)
    (hvalid : ValidContainer entries)
    (hne : ∃ e ∈ entries, e.isDir = false ∧ 0 < e.size)
    (hsize : ¬ src.size > maxFileSize)
    (hallow : casefold (splitext src.filename).2 ∈ fileExtensionsToCompress)
    (hext : casefold (splitext src.filename).2 = ".7z"
      ∨ casefold (splitext src.filename).2 = ".zip") :
    (processFiles maxFileSize fileExtensionsToCompress src currentRelativePath currentPath
        destinationDirectory fs0).exitKind = .completed
    ∧ fsGet (processFiles maxFileSize fileExtensionsToCompress src currentRelativePath
        currentPath destinationDirectory fs0).fs
        (destinationDirectory ++ currentRelativePath ++ (splitext src.filename).1 ++ ".7z")
        = some (.archive (entries.map (fun e => ArchiveEntry.mk e.name e.isDir e.content)))
    ∧ (entries.map (fun e => ArchiveEntry.mk e.name e.isDir e.content)).map ArchiveEntry.name
        = entries.map SrcEntry.name
    ∧ ∀ e ∈ entries, e.isDir = false → e.size = 0 →
        ArchiveEntry.mk e.name false []
          ∈ entries.map (fun e => ArchiveEntry.mk e.name e.isDir e.content) := by
  obtain ⟨hnd, hv⟩ := hvalid
  have hphase := phaseA_transcode maxFileSize fileExtensionsToCompress src
    currentRelativePath destinationDirectory fs0 hsize hallow hext
  have hloop := writeEntryLoop_complete entries hnd hv entries [] (fun e he => he)
  refine ⟨?_, ?_, ?_, ?_⟩
  · simp only [processFiles, hphase, transcodeBranch, harc, hloop, postProcess]
    simp
  · simp only [processFiles, hphase, transcodeBranch, harc, hloop, postProcess]
    simp [fsGet_fsSet]
  · simp [List.map_map, Function.comp]
  · intro e he hdir hs
    have hcz : e.content = [] := by
      have h1 := (hv e he).1
      rw [hs] at h1
      exact List.eq_nil_of_length_eq_zero h1.symm
    have himg : ArchiveEntry.mk e.name e.isDir e.content = ArchiveEntry.mk e.name false [] := by
      rw [hdir, hcz]
    exact himg ▸ List.mem_map_of_mem (fun e => ArchiveEntry.mk e.name e.isDir e.content) he

/-- C2 witness: the spec's scenario, a `data.zip` holding a two-byte text
file, an empty directory marker and a zero-length file, transcoded into
`data.7z` with the same three entries. -/
theorem C2_transcode_round_trip_witness :
    (processFiles 100 [".7z", ".zip"] c2zip "" "/s/" "/d/" []).exitKind = .completed
    ∧ fsGet (processFiles 100 [".7z", ".zip"] c2zip "" "/s/" "/d/" []).fs
        ("/d/" ++ "" ++ (splitext c2zip.filename).1 ++ ".7z")
        = some (.archive (c2entries.map (fun e => ArchiveEntry.mk e.name e.isDir e.content)))
    ∧ (c2entries.map (fun e => ArchiveEntry.mk e.name e.isDir e.content)).map ArchiveEntry.name
        = c2entries.map SrcEntry.name
    ∧ ∀ e ∈ c2entries, e.isDir = false → e.size = 0 →
        ArchiveEntry.mk e.name false []
          ∈ c2entries.map (fun e => ArchiveEntry.mk e.name e.isDir e.content) :=
  C2_transcode_round_trip 100 [".7z", ".zip"] c2zip "" "/s/" "/d/" [] c2entries rfl
    (by decide) (by decide) (by decide) (by decide) (by decide)

/-- C3: the classifier is total (a Lean function) and evaluates in priority
order: oversized files are copied regardless of extension; files whose
casefolded extension is outside the allow-list are copied; allow-listed
`.7z`/`.zip` files are transcoded; any other allow-listed file is wrapped,
and the wrap output container is named after the file's base name with the
extension replaced by the normalized `.7z` extension (line 66). -/
theorem C3_classifier_priority (maxFileSize fileSize : Nat)
    (fileExtensionsToCompress : List String) (fileExtension : String)
    (src : SourceFile) (currentRelativePath currentPath destinationDirectory : String)
    (fs0 : Fs) :
    (fileSize > maxFileSize →
      classify maxFileSize fileExtensionsToCompress fileSize fileExtension = .copy)
    ∧ (fileSize ≤ maxFileSize → fileExtension ∉ fileExtensionsToCompress →
      classify maxFileSize fileExtensionsToCompress fileSize fileExtension = .copy)
    ∧ (fileSize ≤ maxFileSize → fileExtension ∈ fileExtensionsToCompress →
      (fileExtension = ".7z" ∨ fileExtension = ".zip") →
      classify maxFileSize fileExtensionsToCompress fileSize fileExtension
        = .transcodeArchive)
    ∧ (fileSize ≤ maxFileSize → fileExtension ∈ fileExtensionsToCompress →
      fileExtension ≠ ".7z" → fileExtension ≠ ".zip" →
      classify maxFileSize fileExtensionsToCompress fileSize fileExtension
        = .wrapSingleFile)
    ∧ (classify maxFileSize fileExtensionsToCompress src.size
          (casefold (splitext src.filename).2) = .wrapSingleFile →
      src.wrapWriteOk = true →
      fsGet (processFiles maxFileSize fileExtensionsToCompress src currentRelativePath
          currentPath destinationDirectory fs0).fs
          (destinationDirectory ++ currentRelativePath ++ (splitext src.filename).1 ++ ".7z")
        = some (.archive [ArchiveEntry.mk src.filename false src.content])) := by
  refine ⟨?_, ?_, ?_, ?_, ?_⟩
  · intro h; simp [classify, h]
  · intro h1 h2; simp [classify, Nat.not_lt.mpr h1, h2]
  · intro h1 h2 h3
    rcases h3 with h | h
    · simp [classify, Nat.not_lt.mpr h1, h ▸ h2, h]
    · have h7 : (".zip" : String) ≠ ".7z" := by decide
      simp [classify, Nat.not_lt.mpr h1, h ▸ h2, h, h7]
  · intro h1 h2 h3 h4; simp [classify, Nat.not_lt.mpr h1, h2, h3, h4]
  · intro hcls hw
    by_cases hsize : src.size > maxFileSize
    · simp [classify, hsize] at hcls
    by_cases hallow : casefold (splitext src.filename).2 ∈ fileExtensionsToCompress
    case neg => simp [classify, hsize, hallow] at hcls
    by_cases h7 : casefold (splitext src.filename).2 = ".7z"
    · rw [h7] at hallow
      simp [classify, hsize, hallow, h7] at hcls
    by_cases hz : casefold (splitext src.filename).2 = ".zip"
    · rw [hz] at hallow
      have hzne : (".zip" : String) ≠ ".7z" := by decide
      simp [classify, hsize, hallow, h7, hz, hzne] at hcls
    have hphase := phaseA_wrap maxFileSize fileExtensionsToCompress src
      currentRelativePath destinationDirectory fs0 hsize hallow h7 hz
    simp only [processFiles, hphase, wrapBranch, hw, postProcess]
    simp [fsGet_fsSet]

/-- C3 witness: all four priority branches exercised at concrete inputs,
plus the wrap-branch output naming for `w.lnx` becoming `/d/w.7z`. -/
theorem C3_classifier_priority_witness :
    classify 10 [".7z", ".zip", ".lnx"] 11 ".7z" = .copy
    ∧ classify 10 [".7z", ".zip", ".lnx"] 5 ".txt" = .copy
    ∧ classify 10 [".7z", ".zip", ".lnx"] 5 ".zip" = .transcodeArchive
    ∧ classify 10 [".7z", ".zip", ".lnx"] 5 ".lnx" = .wrapSingleFile
    ∧ fsGet (processFiles 10 [".7z", ".zip", ".lnx"] c3wrapSrc "" "/s/" "/d/" []).fs
        ("/d/" ++ "" ++ (splitext c3wrapSrc.filename).1 ++ ".7z")
        = some (.archive [ArchiveEntry.mk c3wrapSrc.filename false c3wrapSrc.content]) :=
  ⟨(C3_classifier_priority 10 11 [".7z", ".zip", ".lnx"] ".7z" c3wrapSrc "" "/s/" "/d/" []).1
      (by decide),
   (C3_classifier_priority 10 5 [".7z", ".zip", ".lnx"] ".txt" c3wrapSrc "" "/s/" "/d/" []).2.1
      (by decide) (by decide),
   (C3_classifier_priority 10 5 [".7z", ".zip", ".lnx"] ".zip" c3wrapSrc "" "/s/" "/d/" []).2.2.1
      (by decide) (by decide) (by decide),
   (C3_classifier_priority 10 5 [".7z", ".zip", ".lnx"] ".lnx" c3wrapSrc "" "/s/" "/d/" []).2.2.2.1
      (by decide) (by decide) (by decide) (by decide),
   (C3_classifier_priority 10 5 [".7z", ".zip", ".lnx"] ".lnx" c3wrapSrc "" "/s/" "/d/" []).2.2.2.2
      (by decide) (by decide)⟩

/-- C4: for a Job classified as `WrapSingleFile`, a write error while
producing the single-entry container is NOT caught: lines 118-121 have no
try/except, so the exception escapes `process_files` — no fallback copy is
made, the destination archive is left truncated, and the semaphore is
never released.  This contradicts the code's own comment (lines 47-48)
that any exception in the compression libraries leads to a default copy. -/
theorem C4_wrap_write_error_uncaught :
    processFiles 100 [".lnx"] c4wrapFail "" "/s/" "/d/" []
      = WorkerResult.mk [("/d/a.7z", .truncated)] .raised 0 .copy none := by decide

/-- C5 counterexample: a valid `.7z` container whose single entry has zero
content (aggregate content size 0 across all entries) is NOT treated as a
read error and does NOT fall back to Copy: the worker completes with
`post_file_processing = DO_NOTHING`, producing a recompressed shell archive
at the destination. -/
theorem C5_zero_content_cex :
    (processFiles 100 [".7z", ".zip"] c5empty7z "" "/s/" "/d/" []).postOp = .doNothing
    ∧ fsGet (processFiles 100 [".7z", ".zip"] c5empty7z "" "/s/" "/d/" []).fs "/d/a.7z"
        = some (.archive [ArchiveEntry.mk "e.txt" false []])
    ∧ (processFiles 100 [".7z", ".zip"] c5empty7z "" "/s/" "/d/" []).exitKind
        = .completed := by decide

/-- C5 amended: there is no aggregate-compressed-size guard in the code.  A
source container that opens and lists successfully and whose entries all
carry zero content (directories or zero-size entries) is transcoded into a
recompressed shell archive of empty entries — the Job does not fall back
to a Copy of the original archive. -/
theorem C5_zero_content_amended (maxFileSize : Nat)
    (fileExtensionsToCompress : List String) (src : SourceFile)
    (currentRelativePath currentPath destinationDirectory : String) (fs0 : Fs)
    (entries : List SrcEntry)
    (harc : src.archive = .ok entries)
    (hempty : ∀ e ∈ entries, e.isDir = true ∨ e.size = 0)
    (hsize : ¬ src.size > maxFileSize)
    (hallow : casefold (splitext src.filename).2 ∈ fileExtensionsToCompress)
    (hext : casefold (splitext src.filename).2 = ".7z"
      ∨ casefold (splitext src.filename).2 = ".zip") :
    (processFiles maxFileSize fileExtensionsToCompress src currentRelativePath currentPath
        destinationDirectory fs0).postOp = .doNothing
    ∧ (processFiles maxFileSize fileExtensionsToCompress src currentRelativePath currentPath
        destinationDirectory fs0).exitKind = .completed
    ∧ fsGet (processFiles maxFileSize fileExtensionsToCompress src currentRelativePath
        currentPath destinationDirectory fs0).fs
        (destinationDirectory ++ currentRelativePath ++ (splitext src.filename).1 ++ ".7z")
        = some (.archive (entries.map (fun e => ArchiveEntry.mk e.name e.isDir []))) := by
  have hphase := phaseA_transcode maxFileSize fileExtensionsToCompress src
    currentRelativePath destinationDirectory fs0 hsize hallow hext
  have hloop := writeEntryLoop_empties entries entries [] hempty
  refine ⟨?_, ?_, ?_⟩ <;>
    simp only [processFiles, hphase, transcodeBranch, harc, hloop, postProcess] <;>
    simp [fsGet_fsSet]

/-- C5 amended witness: a `.7z` container holding one zero-length file and
one directory marker, transcoded into a shell archive. -/
theorem C5_zero_content_amended_witness :
    (processFiles 100 [".7z", ".zip"] c5empty7z "" "/s/" "/d/" []).postOp = .doNothing
    ∧ (processFiles 100 [".7z", ".zip"] c5empty7z "" "/s/" "/d/" []).exitKind = .completed
    ∧ fsGet (processFiles 100 [".7z", ".zip"] c5empty7z "" "/s/" "/d/" []).fs
        ("/d/" ++ "" ++ (splitext c5empty7z.filename).1 ++ ".7z")
        = some (.archive ([SrcEntry.mk "e.txt" false 0 [] true].map
            (fun e => ArchiveEntry.mk e.name e.isDir []))) :=
  C5_zero_content_amended 100 [".7z", ".zip"] c5empty7z "" "/s/" "/d/" []
    [SrcEntry.mk "e.txt" false 0 [] true] rfl (by decide) (by decide) (by decide) (by decide)

/-- C6 counterexample: a Job whose fallback `shutil.copy` raises (a
`FilesystemError` during the fallback Copy) exits the worker body without
releasing the pool slot: `the_semaphore.release()` on line 132 is only
reached on normal return, so this exit path performs 0 releases, not
exactly 1. -/
theorem C6_release_cex :
    (processFiles 100 [] c6copyFail "" "/s/" "/d/" []).released = 0
    ∧ (processFiles 100 [] c6copyFail "" "/s/" "/d/" []).exitKind = .raised
    ∧ (processFiles 100 [] c6copyFail "" "/s/" "/d/" []).released ≠ 1 := by decide

/-- C6 amended: the worker body releases the pool slot exactly once on every
run that returns normally (success or handled fallback), but a run that
propagates an exception — copy failure, source-archive open failure, wrap
write failure — performs no release, permanently consuming the slot. -/
theorem C6_release_amended (maxFileSize : Nat) (fileExtensionsToCompress : List String)
    (src : SourceFile) (currentRelativePath currentPath destinationDirectory : String)
    (fs0 : Fs) :
    ((processFiles maxFileSize fileExtensionsToCompress src currentRelativePath currentPath
        destinationDirectory fs0).exitKind = .completed →
      (processFiles maxFileSize fileExtensionsToCompress src currentRelativePath currentPath
        destinationDirectory fs0).released = 1)
    ∧ ((processFiles maxFileSize fileExtensionsToCompress src currentRelativePath currentPath
        destinationDirectory fs0).exitKind = .raised →
      (processFiles maxFileSize fileExtensionsToCompress src currentRelativePath currentPath
        destinationDirectory fs0).released = 0) := by
  simp only [processFiles]
  exact postProcess_released_eq src currentRelativePath destinationDirectory
    (splitext src.filename).1
    (phaseA maxFileSize fileExtensionsToCompress src currentRelativePath
      destinationDirectory fs0)

/-- C6 amended witness: one normal completion (one release) and one raising
run (no release). -/
theorem C6_release_amended_witness :
    (processFiles 100 [] c6copyOkSrc "" "/s/" "/d/" []).released = 1
    ∧ (processFiles 100 [] c6copyFail "" "/s/" "/d/" []).released = 0 :=
  ⟨(C6_release_amended 100 [] c6copyOkSrc "" "/s/" "/d/" []).1 (by decide),
   (C6_release_amended 100 [] c6copyFail "" "/s/" "/d/" []).2 (by decide)⟩

/-- C7 counterexample: with ceiling 1 and two Jobs, the first Job raising
(copy failure) leaks the only semaphore permit; the run reaches a state
with no possible further step — the enumerator blocks forever in
`pool_semaphore.acquire` — with 0 of the 2 Jobs completed and one Job
never submitted, so it is not the case that every run produces exactly N
outcomes by run completion. -/
theorem C7_pool_cex :
    Relation.ReflTransGen (PStep 100 [] "/d/") (initPState 1 [c7jobBad, c7jobGood]) c7stuck
    ∧ (∀ t, ¬ PStep 100 [] "/d/" c7stuck t)
    ∧ c7stuck.done = 0
    ∧ c7stuck.pending ≠ []
    ∧ [c7jobBad, c7jobGood].length = 2 := by
  refine ⟨?_, ?_, by decide, by decide, rfl⟩
  · exact Relation.ReflTransGen.head c7badSubmit
      (Relation.ReflTransGen.head c7badRaise Relation.ReflTransGen.refl)
  · intro t hstep
    cases hstep with
    | submit j rest hpending hpermits => simp [c7stuck] at hpermits
    | finishOk j l1 l2 hrunning hok =>
      cases l1 <;> simp [c7stuck] at hrunning
    | finishRaise j l1 l2 hrunning hraise =>
      cases l1 <;> simp [c7stuck] at hrunning

/-- C7 amended: in every reachable state of the pool the number of
concurrently running Jobs never exceeds the ceiling, and the Jobs are
partitioned among completed, leaked (raised), running and pending; in
particular a run in which no Job raises and that drains its pending and
running lists has produced exactly N completions.  A Job that raises
permanently consumes a permit, which can leave the run unable to
complete (see the counterexample). -/
theorem C7_pool_amended (maxFileSize : Nat) (fileExtensionsToCompress : List String)
    (destinationDirectory : String) (processes : Nat) (jobs : List JobSpec) (s : PState)
    (h : Relation.ReflTransGen (PStep maxFileSize fileExtensionsToCompress destinationDirectory)
      (initPState processes jobs) s) :
    s.running.length ≤ processes
    ∧ s.done + s.leaked + s.running.length + s.pending.length = jobs.length
    ∧ (s.leaked = 0 → s.running = [] → s.pending = [] → s.done = jobs.length) := by
  obtain ⟨h1, h2⟩ := poolInvariant maxFileSize fileExtensionsToCompress destinationDirectory
    processes jobs s h
  refine ⟨by omega, h2, fun hl hr hp => ?_⟩
  rw [hl, hr, hp] at h2
  simp only [List.length_nil] at h2
  omega

/-- C7 amended witness: a failure-free run of one Job with ceiling 1,
reaching the drained final state with exactly one completion. -/
theorem C7_pool_amended_witness :
    (PState.mk 1 [] [] 1 0).running.length ≤ 1
    ∧ (PState.mk 1 [] [] 1 0).done + (PState.mk 1 [] [] 1 0).leaked
        + (PState.mk 1 [] [] 1 0).running.length + (PState.mk 1 [] [] 1 0).pending.length
        = [c7jobGood].length
    ∧ ((PState.mk 1 [] [] 1 0).leaked = 0 → (PState.mk 1 [] [] 1 0).running = [] →
        (PState.mk 1 [] [] 1 0).pending = [] →
        (PState.mk 1 [] [] 1 0).done = [c7jobGood].length) :=
  C7_pool_amended 100 [] "/d/" 1 [c7jobGood] (PState.mk 1 [] [] 1 0)
    (Relation.ReflTransGen.head c7goodSubmit
      (Relation.ReflTransGen.head c7goodFinish Relation.ReflTransGen.refl))

/-- C8 counterexample: a run containing a Job that ended in an unrecovered
error (the worker raised) still exits with status 0 — `__main__` never
inspects the workers' results and contains no `sys.exit`, so the exit
status does not reflect Job failures. -/
theorem C8_exit_status_cex :
    (processFiles 100 [] c6copyFail "" "/s/" "/d/" []).exitKind = .raised
    ∧ mainExitStatus [processFiles 100 [] c6copyFail "" "/s/" "/d/" []] = 0 := by decide

/-- C8 amended: a run that completes always exits with status zero,
whatever the per-Job outcomes were; per-Job errors are only logged. -/
theorem C8_exit_status_amended (jobResults : List WorkerResult) :
    mainExitStatus jobResults = 0 := rfl

/-- C9 counterexample: a source tree whose only subdirectory `empty`
contains no regular files still gets a destination directory
`/d/empty/` created — line 148 runs `os.makedirs` for every walked
directory before, and regardless of, the file loop. -/
theorem C9_empty_dir_cex :
    walkMakedirs "/s/" "/d/" c9walk = ["/d/", "/d/empty/"]
    ∧ (∀ w ∈ c9walk, w.files = [])
    ∧ "/d/empty/" ∈ walkMakedirs "/s/" "/d/" c9walk := by decide

/-- C9 amended: `compress_files` creates the destination directory for
every directory the walk visits, including directories containing no
regular files — empty directory structure IS mirrored into the
destination. -/
theorem C9_mkdirs_amended (sourceDirectory destinationDirectory : String)
    (walk : List WalkEntry) (w : WalkEntry) (hw : w ∈ walk) :
    destinationDirectory ++ relOfWalkPath sourceDirectory w.path
      ∈ walkMakedirs sourceDirectory destinationDirectory walk :=
  List.mem_map_of_mem _ hw

/-- C9 amended witness: the empty directory of the counterexample walk gets
its destination directory created. -/
theorem C9_mkdirs_amended_witness :
    "/d/" ++ relOfWalkPath "/s/" (WalkEntry.mk "/s/empty" []).path
      ∈ walkMakedirs "/s/" "/d/" c9walk :=
  C9_mkdirs_amended "/s/" "/d/" c9walk (WalkEntry.mk "/s/empty" []) (by decide)

/-- C10 counterexample: two distinct source files in the same directory,
`b.zip` (transcoded) and `b.lnx` (wrapped), both produce the destination
path `/d/b.7z`; and a Job for a zip whose entry read fails mid-transcode
produces two destination objects (the committed partial `/d/c.7z` plus the
fallback copy `/d/c.zip`), not exactly one. -/
theorem C10_dest_path_cex :
    (processFiles 100 [".zip", ".lnx"] c10zip "" "/s/" "/d/" []).finalPath = some "/d/b.7z"
    ∧ (processFiles 100 [".zip", ".lnx"] c10lnx "" "/s/" "/d/" []).finalPath = some "/d/b.7z"
    ∧ c10zip.filename ≠ c10lnx.filename
    ∧ (processFiles 100 [".zip", ".lnx"] c10zipBad "" "/s/" "/d/" []).fs.map Prod.fst
        = ["/d/c.7z", "/d/c.zip"] := by decide

/-- C10 amended: for every Job whose worker completes, the final destination
path is the deterministic function of the inputs and the copy/no-copy
outcome: the plain filename under the destination when the post-operation
is Copy, and the base name with the normalized `.7z` extension otherwise.
Distinct source files sharing a base name can map to the same destination
path, and a failed zip transcode leaves two destination objects. -/
theorem C10_dest_path_amended (maxFileSize : Nat)
    (fileExtensionsToCompress : List String) (src : SourceFile)
    (currentRelativePath currentPath destinationDirectory : String) (fs0 : Fs)
    (h : (processFiles maxFileSize fileExtensionsToCompress src currentRelativePath
      currentPath destinationDirectory fs0).exitKind = .completed) :
    (processFiles maxFileSize fileExtensionsToCompress src currentRelativePath currentPath
        destinationDirectory fs0).finalPath
      = some (if (processFiles maxFileSize fileExtensionsToCompress src currentRelativePath
            currentPath destinationDirectory fs0).postOp = .copy
          then destinationDirectory ++ currentRelativePath ++ src.filename
          else destinationDirectory ++ currentRelativePath
            ++ (splitext src.filename).1 ++ ".7z") := by
  by_cases hexn : (phaseA maxFileSize fileExtensionsToCompress src currentRelativePath
      destinationDirectory fs0).exn
  · simp [processFiles, postProcess, hexn] at h
  · by_cases hpost : (phaseA maxFileSize fileExtensionsToCompress src currentRelativePath
        destinationDirectory fs0).post = .copy
    · by_cases hcopy : src.copyOk
      · simp [processFiles, postProcess, hexn, hpost, hcopy]
      · simp [processFiles, postProcess, hexn, hpost, hcopy] at h
    · simp [processFiles, postProcess, hexn, hpost]

/-- C10 amended witness: the wrapped `b.lnx` Job completes and its final
destination path is `/d/b.7z`, the non-copy branch of the path formula. -/
theorem C10_dest_path_amended_witness :
    (processFiles 100 [".zip", ".lnx"] c10lnx "" "/s/" "/d/" []).finalPath
      = some (if (processFiles 100 [".zip", ".lnx"] c10lnx "" "/s/" "/d/" []).postOp = .copy
          then "/d/" ++ "" ++ c10lnx.filename
          else "/d/" ++ "" ++ (splitext c10lnx.filename).1 ++ ".7z") :=
  C10_dest_path_amended 100 [".zip", ".lnx"] c10lnx "" "/s/" "/d/" [] (by decide)
